import Mathlib

/-!
Shallow embedding of the heuristic discount-recommendation and chatbot
intent engines of the walmartEntropy repository.

Numbers are modelled as rationals (`ℚ`); JavaScript `Math.round` is
`roundJS` (round half toward positive infinity), `Math.round(x*100)/100`
is `round2`, `Math.round(x*10)/10` is `round1`.  JavaScript optional
number arguments are `Option ℚ`, with the truthiness test `x ≠ 0` made
explicit where the source tests `if (actualDiscount)`.
-/

/-- JavaScript `Math.round`: round half toward positive infinity. -/
def roundJS (x : ℚ) : ℤ := ⌊x + 1 / 2⌋

/-- JavaScript `Math.round(x * 100) / 100` (two-decimal rounding). -/
def round2 (x : ℚ) : ℚ := (roundJS (x * 100) : ℚ) / 100

/-- JavaScript `Math.round(x * 10) / 10` (one-decimal rounding). -/
def round1 (x : ℚ) : ℚ := (roundJS (x * 10) : ℚ) / 10

/-- In-place mutation of the first element matching `p`, as performed by
`array.find(...)` followed by field assignments on the found object. -/
def updateFirst (p : α → Bool) (f : α → α) : List α → List α
  | [] => []
  | x :: xs => if p x then f x :: xs else x :: updateFirst p f xs

/-- `[...new Set(list)]` in JavaScript: deduplicate keeping the first
occurrence of each element, in first-seen order. -/
def uniqueFirst : List String → List String
  | [] => []
  | x :: xs => x :: uniqueFirst (xs.filter (fun y => y != x))
termination_by l => l.length
decreasing_by
  simp only [List.length_cons]
  exact Nat.lt_succ_of_le (List.length_filter_le _ _)

/-- JavaScript `toLowerCase()`, character by character. -/
def lowerStr (s : String) : String := String.mk (s.data.map Char.toLower)

/-- Substring containment on character lists. -/
def infixOf (needle : List Char) : List Char → Bool
  | [] => needle.isEmpty
  | c :: rest => needle.isPrefixOf (c :: rest) || infixOf needle rest

/-- JavaScript `haystack.includes(needle)` on strings. -/
def strIncludes (haystack needle : String) : Bool :=
  infixOf needle.toList haystack.toList

/-- JavaScript `a || b` on an optional number `a`: `a` wins unless it is
absent or `0` (falsy). -/
def jsOrOpt (a b : Option ℚ) : Option ℚ :=
  match a with
  | none => b
  | some x => if x = 0 then b else a

/-! ## Data model (DiscountRecommendationService) -/

/-- Status of a `DiscountRecommendation`. -/
inductive RecStatus
  | pending
  | approved
  | rejected
  | applied
deriving DecidableEq, Repr

/-- Four-tier risk bucketing of predicted waste percentage. -/
inductive RiskLevel
  | low
  | medium
  | high
  | critical
deriving DecidableEq, Repr

/-- Kind of an approve/reject decision. -/
inductive DecisionKind
  | approved
  | rejected
deriving DecidableEq, Repr

/-- One user-supplied historical waste record (`UserTrainingData`).
Dates are modelled as already-parsed epoch milliseconds. -/
structure TrainingRecord where
  productName : String
  category : String
  purchaseTime : ℚ
  expiryTime : ℚ
  initialStock : ℚ
  finalStock : ℚ
  wasteAmount : ℚ
  temperature : ℚ
  humidity : ℚ
  promotionActive : Bool
  location : String
deriving DecidableEq, Repr

/-- Mean temperature/humidity of a matched historical subset. -/
structure EnvFactors where
  avgTemp : ℚ
  avgHumidity : ℚ
deriving DecidableEq, Repr

/-- Result of `analyzeHistoricalWastePattern`.  `environmentalFactors`
is `none` for the empty-subset case, where the source returns an empty
object `{}` (reads of its fields yield `undefined`, and comparisons
against `undefined` are false). -/
structure HistoricalPattern where
  wasteRate : ℚ
  dataPoints : ℕ
  avgDaysToWaste : ℚ
  environmentalFactors : Option EnvFactors
deriving DecidableEq, Repr

/-- Simulated current conditions handed to `calculatePredictedWaste`. -/
structure CurrentConditions where
  temperature : ℚ
  humidity : ℚ
deriving DecidableEq, Repr

/-- Result record of `calculatePredictedWaste`. -/
structure WastePrediction where
  wasteAmount : ℤ
  wastePercentage : ℚ
  confidence : ℤ
deriving DecidableEq, Repr

/-- A generated discount recommendation.  `timestamp` is epoch
milliseconds. -/
structure DiscountRecommendation where
  id : String
  productName : String
  category : String
  currentStock : ℚ
  hoursUntilExpiry : ℚ
  predictedWasteAmount : ℚ
  predictedWastePercentage : ℚ
  suggestedDiscountPercentage : ℚ
  estimatedRevenueSaved : ℚ
  confidence : ℤ
  riskLevel : RiskLevel
  reasoning : List String
  location : String
  currentPrice : ℚ
  discountedPrice : ℚ
  status : RecStatus
  timestamp : ℚ
  basedOnDataPoints : ℕ
  historicalWasteRate : ℚ
deriving DecidableEq, Repr

/-- Append-only audit record of an approve/reject call. -/
structure DiscountDecision where
  recommendationId : String
  decision : DecisionKind
  actualDiscountApplied : Option ℚ
  ownerNotes : Option String
  timestamp : ℚ
deriving DecidableEq, Repr

/-- Mutable state of the `DiscountRecommendationService` singleton.
`trainedModelData` records only the presence of the opaque trained-model
marker, which is all the source ever checks. -/
structure ServiceState where
  recommendations : List DiscountRecommendation
  decisions : List DiscountDecision
  trainedModelData : Bool
  userTrainingData : List TrainingRecord
deriving Repr

/-! ## Historical pattern analysis -/

/-- Sum of `initialStock` over a record list, written as the source's
`reduce((sum, d) => sum + d.initialStock, 0)`. -/
def sumInitialStock (l : List TrainingRecord) : ℚ :=
  l.foldl (fun sum d => sum + d.initialStock) 0

/-- Sum of `wasteAmount` over a record list. -/
def sumWasteAmount (l : List TrainingRecord) : ℚ :=
  l.foldl (fun sum d => sum + d.wasteAmount) 0

/-- The waste-rate computation shared by
`DiscountRecommendationService.analyzeHistoricalWastePattern` and
`UserTrainingService.calculateWasteRate`: `0` on an empty subset,
otherwise `(Σ wasteAmount / Σ initialStock) * 100` guarded by
`totalInitialStock > 0`. -/
def wasteRateOf (relevantData : List TrainingRecord) : ℚ :=
  if relevantData.length = 0 then 0
  else
    let totalInitialStock := sumInitialStock relevantData
    let totalWaste := sumWasteAmount relevantData
    if totalInitialStock > 0 then totalWaste / totalInitialStock * 100 else 0

/-- `analyzeHistoricalWastePattern`: exact case-insensitive product-name
matches first, category matches as fallback; waste rate, subset size,
mean days from purchase to expiry, and mean temperature/humidity. -/
def analyzeHistoricalWastePattern (userTrainingData : List TrainingRecord)
    (productName category : String) : HistoricalPattern :=
  let exactMatches := userTrainingData.filter
    (fun d => lowerStr d.productName == lowerStr productName)
  let categoryMatches := userTrainingData.filter
    (fun d => lowerStr d.category == lowerStr category)
  let relevantData := if exactMatches.length > 0 then exactMatches else categoryMatches
  if relevantData.length = 0 then
    { wasteRate := 0, dataPoints := 0, avgDaysToWaste := 0, environmentalFactors := none }
  else
    let wasteRate := wasteRateOf relevantData
    let avgDaysToWaste :=
      relevantData.foldl
        (fun sum d => sum + (d.expiryTime - d.purchaseTime) / (1000 * 60 * 60 * 24)) (0 : ℚ)
        / (relevantData.length : ℚ)
    let avgTemp :=
      relevantData.foldl (fun sum d => sum + d.temperature) (0 : ℚ) / (relevantData.length : ℚ)
    let avgHumidity :=
      relevantData.foldl (fun sum d => sum + d.humidity) (0 : ℚ) / (relevantData.length : ℚ)
    { wasteRate := wasteRate, dataPoints := relevantData.length,
      avgDaysToWaste := avgDaysToWaste,
      environmentalFactors := some { avgTemp := avgTemp, avgHumidity := avgHumidity } }

/-! ## Waste prediction -/

/-- `calculatePredictedWaste`: the historical waste rate adjusted by the
expiry-window factor, the environmental-condition factors and the
stock-level factor, clamped to `[0, 100]`; predicted units and a
confidence score.  The branch order of each `if`/`else if` chain is
exactly the source's.  Comparisons against the fields of an absent
`environmentalFactors` object are false, as in JavaScript. -/
def calculatePredictedWaste (currentStock hoursUntilExpiry : ℚ)
    (historicalPattern : HistoricalPattern)
    (currentConditions : CurrentConditions) : WastePrediction :=
  let baseWasteRate := historicalPattern.wasteRate
  let daysUntilExpiry := hoursUntilExpiry / 24
  let baseWasteRate :=
    if daysUntilExpiry ≤ 1 then baseWasteRate * 2.0
    else if daysUntilExpiry ≤ 2 then baseWasteRate * 1.5
    else if daysUntilExpiry ≤ 3 then baseWasteRate * 1.2
    else baseWasteRate
  let tempExceeds :=
    match historicalPattern.environmentalFactors with
    | some e => decide (currentConditions.temperature > e.avgTemp + 5)
    | none => false
  let baseWasteRate := if tempExceeds then baseWasteRate * 1.3 else baseWasteRate
  let humidityExceeds :=
    match historicalPattern.environmentalFactors with
    | some e => decide (currentConditions.humidity > e.avgHumidity + 10)
    | none => false
  let baseWasteRate := if humidityExceeds then baseWasteRate * 1.2 else baseWasteRate
  let baseWasteRate :=
    if currentStock > 50 then baseWasteRate * 1.1
    else if currentStock > 100 then baseWasteRate * 1.2
    else baseWasteRate
  let finalWastePercentage := min 100 (max 0 baseWasteRate)
  let wasteAmount := roundJS (finalWastePercentage / 100 * currentStock)
  let confidence : ℚ := 50 + min 30 ((historicalPattern.dataPoints : ℚ) * 5)
    + (if hoursUntilExpiry ≤ 24 then 15 else 0)
  let confidence := min 95 confidence
  { wasteAmount := wasteAmount,
    wastePercentage := round1 finalWastePercentage,
    confidence := roundJS confidence }

/-! ## Discount selection -/

/-- `calculateOptimalDiscount`: 5-bucket base discount from the waste
percentage, urgency multiplier from hours until expiry, ×1.1 historical
factor for ≥5 data points, rounded then clamped to `[5, 70]`. -/
def calculateOptimalDiscount (wastePercentage hoursUntilExpiry : ℚ)
    (historicalPattern : HistoricalPattern) : ℤ :=
  let baseDiscount : ℚ :=
    if wastePercentage ≥ 60 then 50
    else if wastePercentage ≥ 40 then 35
    else if wastePercentage ≥ 25 then 25
    else if wastePercentage ≥ 15 then 15
    else 10
  let baseDiscount :=
    if hoursUntilExpiry ≤ 6 then baseDiscount * 1.4
    else if hoursUntilExpiry ≤ 12 then baseDiscount * 1.2
    else if hoursUntilExpiry ≤ 24 then baseDiscount * 1.1
    else baseDiscount
  let baseDiscount :=
    if historicalPattern.dataPoints ≥ 5 then baseDiscount * 1.1 else baseDiscount
  min 70 (max 5 (roundJS baseDiscount))

/-- The 5-bucket base-discount ladder exactly as the specification
words it (for comparison with `calculateOptimalDiscount`). -/
def specBaseDiscount (w : ℚ) : ℚ :=
  if w ≥ 60 then 50 else if w ≥ 40 then 35 else if w ≥ 25 then 25
  else if w ≥ 15 then 15 else 10

/-- The urgency multiplier exactly as the specification words it. -/
def specUrgencyMultiplier (h : ℚ) : ℚ :=
  if h ≤ 6 then 1.4 else if h ≤ 12 then 1.2 else if h ≤ 24 then 1.1 else 1

/-- The historical-data multiplier exactly as the specification words it. -/
def specHistoryMultiplier (dataPoints : ℕ) : ℚ :=
  if 5 ≤ dataPoints then 1.1 else 1

/-- `getRiskLevel`: four-tier bucketing of the predicted waste
percentage. -/
def getRiskLevel (wastePercentage : ℚ) : RiskLevel :=
  if wastePercentage ≥ 50 then RiskLevel.critical
  else if wastePercentage ≥ 30 then RiskLevel.high
  else if wastePercentage ≥ 15 then RiskLevel.medium
  else RiskLevel.low

/-- `generateReasoning`: human-readable reasons pushed in source order
(historical data, waste prediction, time urgency, stock level).  Numeric
rendering uses `toString` in place of JavaScript template interpolation. -/
def generateReasoning (recommendation : DiscountRecommendation)
    (historicalPattern : HistoricalPattern) : List String :=
  (if historicalPattern.dataPoints > 0 then
    ["Based on " ++ toString historicalPattern.dataPoints
       ++ " historical data points for " ++ recommendation.category,
     "Historical waste rate: " ++ toString (round1 historicalPattern.wasteRate)
       ++ "% for this category"]
   else [])
  ++ (if recommendation.predictedWastePercentage ≥ 40 then
        ["High waste risk: " ++ toString recommendation.predictedWastePercentage
           ++ "% predicted waste"]
      else if recommendation.predictedWastePercentage ≥ 20 then
        ["Moderate waste risk: " ++ toString recommendation.predictedWastePercentage
           ++ "% predicted waste"]
      else [])
  ++ (if recommendation.hoursUntilExpiry ≤ 12 then
        ["Urgent: Only " ++ toString recommendation.hoursUntilExpiry
           ++ " hours until expiry"]
      else if recommendation.hoursUntilExpiry ≤ 24 then
        ["Time-sensitive: " ++ toString recommendation.hoursUntilExpiry
           ++ " hours until expiry"]
      else [])
  ++ (if recommendation.currentStock > 30 then
        ["High inventory: " ++ toString recommendation.currentStock
           ++ " units need to be moved quickly"]
      else [])

/-! ## Recommendation generation -/

/-- The randomized inventory simulation of
`generateRecommendationsFromTrainingData`, modelled as an oracle: for
each product name it supplies the simulated current stock, hours until
expiry, current price, the ±temperature/±humidity perturbations, the
generated id, and the clock. -/
structure InventoryOracle where
  stockOf : String → ℚ
  hoursOf : String → ℚ
  priceOf : String → ℚ
  tempDeltaOf : String → ℚ
  humDeltaOf : String → ℚ
  idOf : String → String
  now : ℚ

/-- The per-product body of the `uniqueProducts.forEach` loop in
`generateRecommendationsFromTrainingData`: find the product's first
record, simulate a current scenario, and emit a pending recommendation
when the data and thresholds allow (`dataPoints > 0` and
`wasteRate > 5`, then `wastePercentage > 10` or `hoursUntilExpiry ≤ 24`). -/
def simulateProduct (userTrainingData : List TrainingRecord)
    (oracle : InventoryOracle) (productName : String) :
    Option DiscountRecommendation :=
  match userTrainingData.find? (fun d => d.productName == productName) with
  | none => none
  | some productData =>
    let currentStock := oracle.stockOf productName
    let hoursUntilExpiry := oracle.hoursOf productName
    let currentPrice := oracle.priceOf productName
    let historicalPattern :=
      analyzeHistoricalWastePattern userTrainingData productName productData.category
    if historicalPattern.dataPoints > 0 ∧ historicalPattern.wasteRate > 5 then
      let currentConditions : CurrentConditions :=
        { temperature := productData.temperature + oracle.tempDeltaOf productName,
          humidity := productData.humidity + oracle.humDeltaOf productName }
      let prediction :=
        calculatePredictedWaste currentStock hoursUntilExpiry historicalPattern
          currentConditions
      if prediction.wastePercentage > 10 ∨ hoursUntilExpiry ≤ 24 then
        let suggestedDiscount :=
          calculateOptimalDiscount prediction.wastePercentage hoursUntilExpiry
            historicalPattern
        let discountedPrice := currentPrice * (1 - (suggestedDiscount : ℚ) / 100)
        let estimatedRevenueSaved := (prediction.wasteAmount : ℚ) * discountedPrice
        let recommendation : DiscountRecommendation :=
          { id := oracle.idOf productName,
            productName := productName,
            category := productData.category,
            currentStock := currentStock,
            hoursUntilExpiry := hoursUntilExpiry,
            predictedWasteAmount := (prediction.wasteAmount : ℚ),
            predictedWastePercentage := prediction.wastePercentage,
            suggestedDiscountPercentage := (suggestedDiscount : ℚ),
            estimatedRevenueSaved := round2 estimatedRevenueSaved,
            confidence := prediction.confidence,
            riskLevel := getRiskLevel prediction.wastePercentage,
            reasoning := [],
            location := if productData.location ≠ "" then productData.location
                        else productData.category ++ " Section",
            currentPrice := currentPrice,
            discountedPrice := round2 discountedPrice,
            status := RecStatus.pending,
            timestamp := oracle.now,
            basedOnDataPoints := historicalPattern.dataPoints,
            historicalWasteRate := round1 historicalPattern.wasteRate }
        some { recommendation with
                 reasoning := generateReasoning recommendation historicalPattern }
      else none
    else none

/-- Urgency score used to rank the generated batch. -/
def urgencyScore (r : DiscountRecommendation) : ℚ :=
  r.predictedWastePercentage / 100 * (72 - r.hoursUntilExpiry) / 72

/-- Stable insertion into a list sorted by descending urgency. -/
def insertByUrgency (r : DiscountRecommendation) :
    List DiscountRecommendation → List DiscountRecommendation
  | [] => [r]
  | x :: xs =>
    if urgencyScore r > urgencyScore x then r :: x :: xs
    else x :: insertByUrgency r xs

/-- Sort by descending urgency score (the source's comparator
`urgencyB - urgencyA`). -/
def sortByUrgencyDesc (l : List DiscountRecommendation) :
    List DiscountRecommendation :=
  l.foldr insertByUrgency []

/-- The newly generated batch: one candidate per distinct product name
(first-seen order), filtered, then ranked by descending urgency. -/
def buildRecommendations (userTrainingData : List TrainingRecord)
    (oracle : InventoryOracle) : List DiscountRecommendation :=
  let uniqueProducts := uniqueFirst (userTrainingData.map (fun d => d.productName))
  sortByUrgencyDesc (uniqueProducts.filterMap (simulateProduct userTrainingData oracle))

/-- `generateRecommendationsFromTrainingData`: throws (state unchanged)
when the trained-model marker is absent or the training set is empty;
otherwise drops all pending recommendations, appends the new batch, and
returns it. -/
def generateRecommendationsFromTrainingData (st : ServiceState)
    (oracle : InventoryOracle) :
    ServiceState × Except String (List DiscountRecommendation) :=
  if st.trainedModelData = false ∨ st.userTrainingData.length = 0 then
    (st, Except.error "No trained model data available. Please train the model first.")
  else
    let newRecommendations := buildRecommendations st.userTrainingData oracle
    ({ st with
         recommendations :=
           st.recommendations.filter (fun r => r.status != RecStatus.pending)
             ++ newRecommendations },
     Except.ok newRecommendations)

/-! ## Decision workflow -/

/-- The mutation `approveRecommendation` performs on the found
recommendation object: status becomes approved unconditionally; the
discount fields are recomputed only when the optional override discount
is truthy (present and nonzero). -/
def applyApprove (actualDiscount : Option ℚ)
    (r : DiscountRecommendation) : DiscountRecommendation :=
  let r1 := { r with status := RecStatus.approved }
  match actualDiscount with
  | none => r1
  | some d =>
    if d = 0 then r1
    else
      let discountedPrice := r1.currentPrice * (1 - d / 100)
      { r1 with
          suggestedDiscountPercentage := d,
          discountedPrice := discountedPrice,
          estimatedRevenueSaved := r1.predictedWasteAmount * discountedPrice }

/-- `approveRecommendation`: mutate the first recommendation matching
the id (if any), then always append a decision record whose
`actualDiscountApplied` is `actualDiscount || foundRec?.suggestedDiscountPercentage`
read after the mutation. -/
def approveRecommendation (st : ServiceState) (recommendationId : String)
    (actualDiscount : Option ℚ) (notes : Option String) (now : ℚ) : ServiceState :=
  let recs := updateFirst (fun r => r.id == recommendationId)
    (applyApprove actualDiscount) st.recommendations
  let recommendation := recs.find? (fun r => r.id == recommendationId)
  let decision : DiscountDecision :=
    { recommendationId := recommendationId,
      decision := DecisionKind.approved,
      actualDiscountApplied :=
        jsOrOpt actualDiscount (recommendation.map (fun r => r.suggestedDiscountPercentage)),
      ownerNotes := notes,
      timestamp := now }
  { st with recommendations := recs, decisions := st.decisions ++ [decision] }

/-- The mutation `rejectRecommendation` performs on the found
recommendation object. -/
def applyReject (r : DiscountRecommendation) : DiscountRecommendation :=
  { r with status := RecStatus.rejected }

/-- `rejectRecommendation`: set the first matching recommendation's
status to rejected (if any) and append a decision record with no
discount field. -/
def rejectRecommendation (st : ServiceState) (recommendationId : String)
    (notes : Option String) (now : ℚ) : ServiceState :=
  let recs := updateFirst (fun r => r.id == recommendationId)
    applyReject st.recommendations
  let decision : DiscountDecision :=
    { recommendationId := recommendationId,
      decision := DecisionKind.rejected,
      actualDiscountApplied := none,
      ownerNotes := notes,
      timestamp := now }
  { st with recommendations := recs, decisions := st.decisions ++ [decision] }

/-! ## Intent classification (ChatbotService.analyzeIntent) -/

/-- The fixed intent table of `analyzeIntent`, in declaration order:
`Object.entries(intents)` iterates string keys in insertion order. -/
def intentsTable : List (String × List String) :=
  [("search_product",
    ["looking for", "need", "want", "find", "search", "show me", "get me",
     "where can i find", "do you have", "i\x27m looking", "help me find"]),
   ("price_inquiry",
    ["cheap", "expensive", "budget", "affordable", "cost", "price", "money",
     "under", "less than", "maximum", "minimum", "range", "how much"]),
   ("deal_inquiry",
    ["deal", "deals", "discount", "sale", "offer", "promotion", "bargain",
     "special", "clearance", "markdown", "reduced", "savings", "coupon"]),
   ("recommendation",
    ["recommend", "suggest", "advice", "help", "what should", "best",
     "popular", "trending", "top rated", "favorite", "good choice"]),
   ("comparison",
    ["compare", "difference", "better", "versus", "vs", "which one",
     "pros and cons", "similar", "alternative", "option"]),
   ("greeting",
    ["hi", "hello", "hey", "good morning", "good afternoon", "good evening",
     "howdy", "greetings", "what\x27s up"]),
   ("waste_reduction",
    ["eco", "environment", "waste", "sustainable", "green", "expiring",
     "organic", "natural", "recyclable", "biodegradable", "earth friendly"]),
   ("complaint",
    ["problem", "issue", "wrong", "broken", "defective", "complaint",
     "disappointed", "unsatisfied", "return", "refund"]),
   ("compliment",
    ["great", "awesome", "excellent", "perfect", "amazing", "wonderful",
     "fantastic", "love", "thank you", "thanks", "helpful"])]

/-- Number of keywords of one intent that substring-match the
lower-cased message (`keywords.filter(k => lowerMessage.includes(k)).length`). -/
def intentMatchCount (lowerMessage : String) (keywords : List String) : ℕ :=
  (keywords.filter (fun keyword => strIncludes lowerMessage keyword)).length

/-- Indexing into the intent table (out-of-range reads give the fallback
pair, whose keyword list is empty and can never match). -/
def intentAt (i : ℕ) : String × List String :=
  intentsTable.getD i ("general", [])

/-- The intent component of `analyzeIntent`: scan the table in
declaration order and return the first intent with at least one
substring-matching keyword against the lower-cased message (the loop
breaks on the first hit); `"general"` when none matches. -/
def detectIntent (message : String) : String :=
  let lowerMessage := lowerStr message
  match intentsTable.find? (fun p => 0 < intentMatchCount lowerMessage p.2) with
  | some p => p.1
  | none => "general"

/-! ## Auxiliary definitions for the statements -/

/-- Double a historical record's `initialStock` and `wasteAmount`
(the scale transformation of the scale-invariance property). -/
def doubleRec (d : TrainingRecord) : TrainingRecord :=
  { d with initialStock := 2 * d.initialStock, wasteAmount := 2 * d.wasteAmount }

/-- A concrete recommendation used as test fixture, parameterized by
status. -/
def sampleRec (status : RecStatus) : DiscountRecommendation :=
  { id := "rec_1", productName := "Milk", category := "groceries",
    currentStock := 40, hoursUntilExpiry := 12, predictedWasteAmount := 8,
    predictedWastePercentage := 20, suggestedDiscountPercentage := 15,
    estimatedRevenueSaved := 10, confidence := 80, riskLevel := RiskLevel.medium,
    reasoning := [], location := "Dairy", currentPrice := 1.99,
    discountedPrice := 1.69, status := status, timestamp := 0,
    basedOnDataPoints := 3, historicalWasteRate := 12 }

/-- A concrete historical training record used as test fixture. -/
def sampleTraining : TrainingRecord :=
  { productName := "Milk", category := "groceries", purchaseTime := 0,
    expiryTime := 86400000, initialStock := 100, finalStock := 80,
    wasteAmount := 20, temperature := 5, humidity := 60,
    promotionActive := false, location := "Dairy" }

/-- A concrete inventory oracle used as test fixture. -/
def trivialOracle : InventoryOracle :=
  { stockOf := fun _ => 50, hoursOf := fun _ => 12, priceOf := fun _ => 5,
    tempDeltaOf := fun _ => 0, humDeltaOf := fun _ => 0,
    idOf := fun p => "rec_" ++ p, now := 0 }

/-! ## Helper lemmas -/

/-- `applyApprove` always sets the status to approved. -/
theorem applyApprove_status (d : Option ℚ) (r : DiscountRecommendation) :
    (applyApprove d r).status = RecStatus.approved := by
  unfold applyApprove
  cases d with
  | none => rfl
  | some x => by_cases hx : x = 0 <;> simp [hx]

/-- `applyApprove` never changes the id. -/
theorem applyApprove_id (d : Option ℚ) (r : DiscountRecommendation) :
    (applyApprove d r).id = r.id := by
  unfold applyApprove
  cases d with
  | none => rfl
  | some x => by_cases hx : x = 0 <;> simp [hx]

/-- `applyReject` always sets the status to rejected. -/
theorem applyReject_status (r : DiscountRecommendation) :
    (applyReject r).status = RecStatus.rejected := rfl

/-- `applyReject` never changes the id. -/
theorem applyReject_id (r : DiscountRecommendation) :
    (applyReject r).id = r.id := rfl

/-- With no match, `updateFirst` is the identity. -/
theorem updateFirst_of_find?_none {α : Type} {p : α → Bool} {f : α → α} :
    ∀ {l : List α}, l.find? p = none → updateFirst p f l = l := by
  intro l
  induction l with
  | nil => intro _; rfl
  | cons x xs ih =>
    intro h
    rw [List.find?_cons] at h
    split at h
    · exact absurd h (by simp)
    · rename_i hx
      simp only [updateFirst, hx, Bool.false_eq_true, if_false]
      rw [ih h]

/-- When `f` preserves the predicate, the first match after
`updateFirst` is the image of the first match before. -/
theorem find?_updateFirst_some {α : Type} {p : α → Bool} {f : α → α}
    (hf : ∀ x, p (f x) = p x) :
    ∀ {l : List α} {r : α}, l.find? p = some r →
      (updateFirst p f l).find? p = some (f r) := by
  intro l
  induction l with
  | nil => intro r h; simp at h
  | cons x xs ih =>
    intro r h
    by_cases hx : p x = true
    · rw [List.find?_cons_of_pos _ hx] at h
      injection h with h
      subst h
      simp only [updateFirst, hx, if_true]
      rw [List.find?_cons_of_pos _ (by rw [hf]; exact hx)]
    · have hx' : p x = false := by simpa using hx
      rw [List.find?_cons_of_neg _ (by simp [hx'])] at h
      simp only [updateFirst, hx', Bool.false_eq_true, if_false]
      rw [List.find?_cons_of_neg _ (by simp [hx'])]
      exact ih h

/-- `updateFirst` relates the lists elementwise: every element is kept
or has its status set to the constant `f` assigns. -/
theorem forall2_updateFirst_status {p : DiscountRecommendation → Bool}
    {f : DiscountRecommendation → DiscountRecommendation} {c : RecStatus}
    (hf : ∀ x, (f x).status = c) :
    ∀ l, List.Forall₂ (fun r r' => r' = r ∨ r'.status = c) l (updateFirst p f l) := by
  intro l
  induction l with
  | nil => exact List.Forall₂.nil
  | cons x xs ih =>
    by_cases hx : p x
    · simp only [updateFirst, hx, if_true]
      exact List.Forall₂.cons (Or.inr (hf x))
        (List.forall₂_same.mpr (fun y _ => Or.inl rfl))
    · simp only [updateFirst, hx, if_false]
      exact List.Forall₂.cons (Or.inl rfl) ih

/-- Updating twice with status-stable mutations leaves the statuses of
the once-updated list unchanged. -/
theorem updateFirst_status_idem {p : DiscountRecommendation → Bool}
    {f g : DiscountRecommendation → DiscountRecommendation}
    (hpf : ∀ x, p (f x) = p x)
    (hgf : ∀ x, (g (f x)).status = (f x).status) :
    ∀ l, (updateFirst p g (updateFirst p f l)).map (fun r => r.status)
      = (updateFirst p f l).map (fun r => r.status) := by
  intro l
  induction l with
  | nil => rfl
  | cons x xs ih =>
    by_cases hx : p x
    · simp only [updateFirst, hx, if_true]
      have hfx : p (f x) = true := by rw [hpf]; exact hx
      simp only [updateFirst, hfx, if_true, List.map_cons, hgf x]
    · simp only [updateFirst, hx, if_false]
      have hx' : p x = false := by simpa using hx
      simp only [updateFirst, hx', Bool.false_eq_true, if_false, List.map_cons]
      rw [ih]

/-- Folding `+ f d` from `a` is `a` plus the sum of the images. -/
theorem foldl_add_eq_sum (f : TrainingRecord → ℚ) (l : List TrainingRecord) (a : ℚ) :
    l.foldl (fun sum d => sum + f d) a = a + (l.map f).sum := by
  induction l generalizing a with
  | nil => simp
  | cons x xs ih => simp [List.foldl_cons, ih, List.sum_cons]; ring

/-- `sumInitialStock` as a `List.sum`. -/
theorem sumInitialStock_eq (l : List TrainingRecord) :
    sumInitialStock l = (l.map (fun d => d.initialStock)).sum := by
  simp [sumInitialStock, foldl_add_eq_sum]

/-- `sumWasteAmount` as a `List.sum`. -/
theorem sumWasteAmount_eq (l : List TrainingRecord) :
    sumWasteAmount l = (l.map (fun d => d.wasteAmount)).sum := by
  simp [sumWasteAmount, foldl_add_eq_sum]

/-- Doubling every record doubles the stock sum. -/
theorem sumInitialStock_double (l : List TrainingRecord) :
    sumInitialStock (l.map doubleRec) = 2 * sumInitialStock l := by
  simp [sumInitialStock_eq, List.map_map, Function.comp_def, doubleRec]
  rw [← List.sum_map_mul_left]

/-- Doubling every record doubles the waste sum. -/
theorem sumWasteAmount_double (l : List TrainingRecord) :
    sumWasteAmount (l.map doubleRec) = 2 * sumWasteAmount l := by
  simp [sumWasteAmount_eq, List.map_map, Function.comp_def, doubleRec]
  rw [← List.sum_map_mul_left]

/-- `find?` returns the element at the first index whose predicate
holds, when all earlier indices fail it. -/
theorem find?_eq_of_first {α : Type} (p : α → Bool) (d : α) :
    ∀ (l : List α) (i : ℕ), i < l.length → p (l.getD i d) = true →
      (∀ j, j < i → p (l.getD j d) = false) → l.find? p = some (l.getD i d) := by
  intro l
  induction l with
  | nil => intro i hi; simp at hi
  | cons x xs ih =>
    intro i hi hpi hprev
    cases i with
    | zero =>
      simp only [List.getD_cons_zero] at hpi ⊢
      rw [List.find?_cons_of_pos _ hpi]
    | succ n =>
      have hx : p x = false := by
        have := hprev 0 (Nat.succ_pos n)
        simpa using this
      rw [List.find?_cons_of_neg _ (by simp [hx])]
      simp only [List.getD_cons_succ] at hpi ⊢
      exact ih n (by simpa using hi) hpi
        (fun j hj => by simpa using hprev (j + 1) (by omega))

/-! ## Claim theorems -/

/-- C1: the stock-level adjustment of `calculatePredictedWaste` tests
`> 50` before `> 100`, so a stock of 150 (above 100) gets the ×1.1
factor: with historical waste rate 10 and all other adjustments
neutral, the predicted waste percentage is 11, not the 12 that the
claimed ×1.2 factor for stock above 100 would give. -/
theorem predictedWaste_stock_above_100_gets_low_factor :
    (calculatePredictedWaste 150 100 ⟨10, 3, 0, some ⟨20, 50⟩⟩ ⟨20, 50⟩).wastePercentage = 11
    ∧ (10 : ℚ) * 1.1 = 11 ∧ (10 : ℚ) * 1.2 = 12 ∧ (11 : ℚ) ≠ 12 := by
  refine ⟨?_, by norm_num, by norm_num, by norm_num⟩
  norm_num [calculatePredictedWaste, round1, roundJS]

/-- C2 counterexample: a recommendation whose status is already
`approved` has its status overwritten to `rejected` by a later
`rejectRecommendation` call with its id, so the decided states are not
terminal. -/
theorem approved_status_overwritten_by_reject :
    (sampleRec RecStatus.approved).status = RecStatus.approved
    ∧ ((rejectRecommendation ⟨[sampleRec RecStatus.approved], [], true, []⟩
        "rec_1" none 0).recommendations.map (fun r => r.status)) = [RecStatus.rejected]
    ∧ RecStatus.rejected ≠ RecStatus.approved :=
  ⟨rfl, rfl, by decide⟩

/-- C2 (amended): `approveRecommendation` and `rejectRecommendation`
only ever write `approved` respectively `rejected` (every
recommendation is either untouched or carries that status afterwards),
and a repeated call of the same kind leaves all statuses unchanged;
terminality across calls of the opposite kind does not hold. -/
theorem decision_status_discipline (st : ServiceState) (recId : String)
    (d d' : Option ℚ) (n n' : Option String) (t t' : ℚ) :
    List.Forall₂ (fun r r' => r' = r ∨ r'.status = RecStatus.approved)
      st.recommendations (approveRecommendation st recId d n t).recommendations
    ∧ List.Forall₂ (fun r r' => r' = r ∨ r'.status = RecStatus.rejected)
      st.recommendations (rejectRecommendation st recId n t).recommendations
    ∧ (approveRecommendation (approveRecommendation st recId d n t) recId d' n' t').recommendations.map (fun r => r.status)
      = (approveRecommendation st recId d n t).recommendations.map (fun r => r.status)
    ∧ (rejectRecommendation (rejectRecommendation st recId n t) recId n' t').recommendations.map (fun r => r.status)
      = (rejectRecommendation st recId n t).recommendations.map (fun r => r.status) := by
  refine ⟨?_, ?_, ?_, ?_⟩
  · simp only [approveRecommendation]
    exact forall2_updateFirst_status (applyApprove_status d) st.recommendations
  · simp only [rejectRecommendation]
    exact forall2_updateFirst_status applyReject_status st.recommendations
  · simp only [approveRecommendation]
    exact updateFirst_status_idem
      (fun x => by rw [applyApprove_id])
      (fun x => by rw [applyApprove_status, applyApprove_status])
      st.recommendations
  · simp only [rejectRecommendation]
    exact updateFirst_status_idem
      (fun x => by rw [applyReject_id])
      (fun x => by rw [applyReject_status, applyReject_status])
      st.recommendations

/-- C3 counterexample: approving the pending sample recommendation
(current price 1.99) with override 40 stores the exact product
1.99 × 0.6 = 1.194 as `discountedPrice`, while rounding to two
decimals would give 1.19. -/
theorem approve40_discountedPrice_not_rounded :
    ((approveRecommendation ⟨[sampleRec RecStatus.pending], [], true, []⟩ "rec_1"
        (some 40) none 0).recommendations.map (fun r => r.discountedPrice))
      = [1.99 * (1 - 40 / 100)]
    ∧ (1.99 * (1 - 40 / 100) : ℚ) = 1.194
    ∧ round2 (1.99 * 0.6) = 1.19
    ∧ (1.194 : ℚ) ≠ 1.19 := by
  refine ⟨rfl, by norm_num, by norm_num [round2, roundJS], by norm_num⟩

/-- C3 (amended): approving a pending recommendation with override 40
sets its discounted price to currentPrice × (1 − 40/100) (exactly, with
no two-decimal rounding) and its status to approved; a second approve
with the same arguments leaves the status approved and appends a second
decision audit record. -/
theorem approve40_sets_price_status_and_audits (st : ServiceState) (recId : String)
    (r : DiscountRecommendation) (t t' : ℚ)
    (hfind : st.recommendations.find? (fun x => x.id == recId) = some r)
    (hp : r.status = RecStatus.pending) :
    ((approveRecommendation st recId (some 40) none t).recommendations.find?
        (fun x => x.id == recId)
      = some { r with
          status := RecStatus.approved
          suggestedDiscountPercentage := 40
          discountedPrice := r.currentPrice * (1 - 40 / 100)
          estimatedRevenueSaved :=
            r.predictedWasteAmount * (r.currentPrice * (1 - 40 / 100)) })
    ∧ (((approveRecommendation (approveRecommendation st recId (some 40) none t)
          recId (some 40) none t').recommendations.find?
          (fun x => x.id == recId)).map (fun x => x.status)
        = some RecStatus.approved)
    ∧ (approveRecommendation st recId (some 40) none t).decisions
        = st.decisions ++ [⟨recId, DecisionKind.approved, some 40, none, t⟩]
    ∧ (approveRecommendation (approveRecommendation st recId (some 40) none t)
          recId (some 40) none t').decisions
        = st.decisions ++ [⟨recId, DecisionKind.approved, some 40, none, t⟩,
                           ⟨recId, DecisionKind.approved, some 40, none, t'⟩] := by
  have hpres : ∀ x : DiscountRecommendation,
      ((applyApprove (some 40) x).id == recId) = (x.id == recId) := by
    intro x; rw [applyApprove_id]
  have happ : ∀ x : DiscountRecommendation, applyApprove (some 40) x
      = { x with
          status := RecStatus.approved
          suggestedDiscountPercentage := 40
          discountedPrice := x.currentPrice * (1 - 40 / 100)
          estimatedRevenueSaved :=
            x.predictedWasteAmount * (x.currentPrice * (1 - 40 / 100)) } := by
    intro x
    simp [applyApprove]
  have hfind1 :
      (updateFirst (fun x => x.id == recId) (applyApprove (some 40))
          st.recommendations).find? (fun x => x.id == recId)
        = some (applyApprove (some 40) r) :=
    find?_updateFirst_some hpres hfind
  refine ⟨?_, ?_, ?_, ?_⟩
  · simp only [approveRecommendation]
    rw [hfind1, happ r]
  · simp only [approveRecommendation]
    rw [find?_updateFirst_some hpres hfind1]
    simp [applyApprove_status]
  · simp only [approveRecommendation, hfind1]
    simp [jsOrOpt]
  · simp only [approveRecommendation, hfind1]
    rw [find?_updateFirst_some hpres hfind1]
    simp [jsOrOpt]

/-- C3 witness: on the concrete pending sample recommendation,
approving with override 40 yields discounted price 1.99 × (1 − 40/100). -/
theorem approve40_sets_price_status_and_audits_witness :
    ((approveRecommendation ⟨[sampleRec RecStatus.pending], [], true, []⟩ "rec_1"
        (some 40) none 0).recommendations.find? (fun x => x.id == "rec_1")).map
        (fun x => x.discountedPrice) = some (1.99 * (1 - 40 / 100)) := by
  have h := (approve40_sets_price_status_and_audits
    ⟨[sampleRec RecStatus.pending], [], true, []⟩ "rec_1"
    (sampleRec RecStatus.pending) 0 1 rfl rfl).1
  rw [h]
  rfl

/-- C4: with the trained-model marker absent or an empty training set,
`generateRecommendationsFromTrainingData` returns the fixed error and
the state exactly as it was (recommendations, pending ones included,
and decisions untouched). -/
theorem generate_invalid_state_throws_without_mutation (st : ServiceState)
    (oracle : InventoryOracle)
    (h : st.trainedModelData = false ∨ st.userTrainingData = []) :
    generateRecommendationsFromTrainingData st oracle
      = (st, Except.error "No trained model data available. Please train the model first.") := by
  unfold generateRecommendationsFromTrainingData
  rw [if_pos]
  rcases h with h | h
  · exact Or.inl h
  · exact Or.inr (by rw [h]; rfl)

/-- C4 witness: a state with one pending recommendation, one decision,
a trained-model marker but an empty training set is returned unchanged
together with the fixed error. -/
theorem generate_invalid_state_throws_without_mutation_witness :
    generateRecommendationsFromTrainingData
        ⟨[sampleRec RecStatus.pending], [⟨"x", DecisionKind.approved, none, none, 0⟩],
         true, []⟩ trivialOracle
      = (⟨[sampleRec RecStatus.pending], [⟨"x", DecisionKind.approved, none, none, 0⟩],
         true, []⟩,
         Except.error "No trained model data available. Please train the model first.") :=
  generate_invalid_state_throws_without_mutation _ trivialOracle (Or.inr rfl)

/-- C5: `calculateOptimalDiscount` equals the closed-below 5-bucket base
discount times the urgency multiplier times the ≥5-data-points factor,
rounded to the nearest integer and clamped to `[5, 70]`, for every
waste percentage, every hours-until-expiry value and every pattern. -/
theorem calculateOptimalDiscount_formula_and_range (w h : ℚ) (pat : HistoricalPattern) :
    calculateOptimalDiscount w h pat
      = min 70 (max 5 (roundJS (specBaseDiscount w * specUrgencyMultiplier h
          * specHistoryMultiplier pat.dataPoints)))
    ∧ 5 ≤ calculateOptimalDiscount w h pat
    ∧ calculateOptimalDiscount w h pat ≤ 70 := by
  refine ⟨?_, ?_, ?_⟩
  · unfold calculateOptimalDiscount specBaseDiscount specUrgencyMultiplier
      specHistoryMultiplier
    split_ifs <;> simp only [mul_one]
  · unfold calculateOptimalDiscount
    exact le_min (by norm_num) (le_max_left _ _)
  · unfold calculateOptimalDiscount
    exact min_le_left _ _

/-- C6: the intent component of `analyzeIntent` scans the fixed table
in declaration order over the lower-cased message and returns the first
intent with at least one substring-matching keyword, so when two
intents both match, the one declared earlier wins regardless of match
count. -/
theorem detectIntent_first_match_wins (message : String) (i : ℕ)
    (hi : i < intentsTable.length)
    (hmatch : 0 < intentMatchCount (lowerStr message) (intentAt i).2)
    (hbefore : ∀ j, j < i → intentMatchCount (lowerStr message) (intentAt j).2 = 0) :
    detectIntent message = (intentAt i).1 := by
  have hfind :
      intentsTable.find? (fun p => 0 < intentMatchCount (lowerStr message) p.2)
        = some (intentAt i) := by
    apply find?_eq_of_first _ ("general", []) intentsTable i hi
    · show decide
        (0 < intentMatchCount (lowerStr message) (intentsTable.getD i ("general", [])).2) = true
      simp only [intentAt] at hmatch
      exact decide_eq_true hmatch
    · intro j hj
      have h0 := hbefore j hj
      simp only [intentAt] at h0
      show decide
        (0 < intentMatchCount (lowerStr message) (intentsTable.getD j ("general", [])).2) = false
      rw [h0]
      rfl
  simp only [detectIntent, hfind]

/-- C6 witness: "hello hey deal" matches deal_inquiry (declared third)
once and greeting (declared sixth) twice; the earlier deal_inquiry
wins. -/
theorem detectIntent_first_match_wins_witness :
    2 < intentsTable.length
    ∧ 0 < intentMatchCount (lowerStr "hello hey deal") (intentAt 2).2
    ∧ detectIntent "hello hey deal" = (intentAt 2).1
    ∧ (intentAt 2).1 = "deal_inquiry"
    ∧ intentMatchCount (lowerStr "hello hey deal") (intentAt 5).2 = 2 :=
  ⟨by decide, by decide,
   detectIntent_first_match_wins "hello hey deal" 2 (by decide) (by decide) (by decide),
   by decide, by decide⟩

/-- C7: the waste rate is 0 on the empty subset, equals
(Σ wasteAmount / Σ initialStock) × 100 on subsets with nonnegative
stocks, and is scale-invariant: doubling every record's initialStock
and wasteAmount leaves it unchanged on every non-empty subset. -/
theorem wasteRate_formula_and_scale_invariance (l : List TrainingRecord) :
    wasteRateOf ([] : List TrainingRecord) = 0
    ∧ ((∀ d ∈ l, 0 ≤ d.initialStock) →
        wasteRateOf l = if l = [] then 0
          else sumWasteAmount l / sumInitialStock l * 100)
    ∧ (l ≠ [] → wasteRateOf (l.map doubleRec) = wasteRateOf l) := by
  refine ⟨by simp [wasteRateOf], ?_, ?_⟩
  · intro hnn
    by_cases hl : l = []
    · simp [hl, wasteRateOf]
    · have hlen : l.length ≠ 0 := by simpa [List.length_eq_zero] using hl
      by_cases hs : sumInitialStock l > 0
      · simp [wasteRateOf, hlen, hs, hl]
      · have hs0 : sumInitialStock l = 0 := by
          have : 0 ≤ sumInitialStock l := by
            rw [sumInitialStock_eq]
            apply List.sum_nonneg
            intro x hx
            obtain ⟨d, hd, rfl⟩ := List.mem_map.mp hx
            exact hnn d hd
          linarith
        simp [wasteRateOf, hlen, hs, hl, hs0]
  · intro hl
    have hlen : l.length ≠ 0 := by simpa [List.length_eq_zero] using hl
    have hlen2 : (l.map doubleRec).length ≠ 0 := by simpa using hlen
    have hds : sumInitialStock (l.map doubleRec) = 2 * sumInitialStock l :=
      sumInitialStock_double l
    have hdw : sumWasteAmount (l.map doubleRec) = 2 * sumWasteAmount l :=
      sumWasteAmount_double l
    by_cases hs : sumInitialStock l > 0
    · simp only [wasteRateOf, hds, hdw]
      simp only [List.length_map]
      rw [if_neg hlen, if_neg hlen, if_pos hs,
        if_pos (by linarith : (0:ℚ) < 2 * sumInitialStock l)]
      rw [mul_div_mul_left _ _ (two_ne_zero)]
    · have hs2 : ¬ sumInitialStock (l.map doubleRec) > 0 := by
        rw [hds]; intro hc; nlinarith
      simp [wasteRateOf, hlen, hlen2, hs, hs2]

/-- C8: a successful generation call removes exactly the pending
recommendations, appends the newly generated batch, returns that batch,
leaves the decisions untouched, and retains every approved or rejected
recommendation unchanged in the stored list. -/
theorem generate_replaces_pending_keeps_decided (st : ServiceState)
    (oracle : InventoryOracle)
    (hm : st.trainedModelData = true) (hd : st.userTrainingData ≠ []) :
    (generateRecommendationsFromTrainingData st oracle).1.recommendations
      = st.recommendations.filter (fun r => r.status != RecStatus.pending)
          ++ buildRecommendations st.userTrainingData oracle
    ∧ (generateRecommendationsFromTrainingData st oracle).2
        = Except.ok (buildRecommendations st.userTrainingData oracle)
    ∧ (generateRecommendationsFromTrainingData st oracle).1.decisions = st.decisions
    ∧ (∀ r ∈ st.recommendations, r.status ≠ RecStatus.pending →
        r ∈ (generateRecommendationsFromTrainingData st oracle).1.recommendations) := by
  have hcond : ¬ (st.trainedModelData = false ∨ st.userTrainingData.length = 0) := by
    rintro (h | h)
    · rw [hm] at h; exact absurd h (by simp)
    · exact hd (List.length_eq_zero.mp h)
  unfold generateRecommendationsFromTrainingData
  rw [if_neg hcond]
  refine ⟨rfl, rfl, rfl, ?_⟩
  intro r hr hs
  apply List.mem_append_left
  apply List.mem_filter.mpr
  exact ⟨hr, by simpa using hs⟩

/-- C8 witness: with one approved and one pending stored
recommendation and one training record, generation keeps exactly the
approved one and appends the generated batch. -/
theorem generate_replaces_pending_keeps_decided_witness :
    (generateRecommendationsFromTrainingData
        ⟨[sampleRec RecStatus.approved, sampleRec RecStatus.pending], [], true,
         [sampleTraining]⟩ trivialOracle).1.recommendations
      = [sampleRec RecStatus.approved]
          ++ buildRecommendations [sampleTraining] trivialOracle := by
  have h := generate_replaces_pending_keeps_decided
    ⟨[sampleRec RecStatus.approved, sampleRec RecStatus.pending], [], true,
     [sampleTraining]⟩ trivialOracle rfl (List.cons_ne_nil _ _)
  rw [h.1]
  rfl

/-- C9: with an id that matches no stored recommendation, approve and
reject leave the recommendations list unchanged but still append one
decision record; for an approve without override its
`actualDiscountApplied` is undefined (`none`). -/
theorem unknown_id_noop_but_audited (st : ServiceState) (recId : String)
    (d : Option ℚ) (n : Option String) (t : ℚ)
    (h : st.recommendations.find? (fun r => r.id == recId) = none) :
    (approveRecommendation st recId d n t).recommendations = st.recommendations
    ∧ (approveRecommendation st recId d n t).decisions
        = st.decisions ++ [⟨recId, DecisionKind.approved, jsOrOpt d none, n, t⟩]
    ∧ (approveRecommendation st recId none n t).decisions
        = st.decisions ++ [⟨recId, DecisionKind.approved, none, n, t⟩]
    ∧ (rejectRecommendation st recId n t).recommendations = st.recommendations
    ∧ (rejectRecommendation st recId n t).decisions
        = st.decisions ++ [⟨recId, DecisionKind.rejected, none, n, t⟩] := by
  have hupd : ∀ g : DiscountRecommendation → DiscountRecommendation,
      updateFirst (fun r => r.id == recId) g st.recommendations = st.recommendations :=
    fun g => updateFirst_of_find?_none h
  refine ⟨?_, ?_, ?_, ?_, ?_⟩
  · simp only [approveRecommendation, hupd]
  · simp only [approveRecommendation, hupd, h]
    rfl
  · simp only [approveRecommendation, hupd, h]
    rfl
  · simp only [rejectRecommendation, hupd]
  · simp only [rejectRecommendation, hupd]

/-- C9 witness: approving the unknown id "nope" leaves the single
stored recommendation in place and appends one decision whose
`actualDiscountApplied` is `none`. -/
theorem unknown_id_noop_but_audited_witness :
    (approveRecommendation ⟨[sampleRec RecStatus.pending], [], true, []⟩ "nope"
        none none 0).recommendations = [sampleRec RecStatus.pending]
    ∧ (approveRecommendation ⟨[sampleRec RecStatus.pending], [], true, []⟩ "nope"
        none none 0).decisions = [⟨"nope", DecisionKind.approved, none, none, 0⟩] := by
  have h := unknown_id_noop_but_audited ⟨[sampleRec RecStatus.pending], [], true, []⟩
    "nope" none none 0 rfl
  exact ⟨h.1, h.2.1⟩

/-- C10: an explicit override discount of 0 is swallowed by the
truthiness check: the recommendation only gets status approved (all
discount fields unchanged), and the appended decision carries the
original suggested discount, not 0. -/
theorem approve_zero_override_swallowed (st : ServiceState) (recId : String)
    (r : DiscountRecommendation) (n : Option String) (t : ℚ)
    (hfind : st.recommendations.find? (fun x => x.id == recId) = some r)
    (hp : r.status = RecStatus.pending) :
    ((approveRecommendation st recId (some 0) n t).recommendations.find?
        (fun x => x.id == recId)
      = some { r with status := RecStatus.approved })
    ∧ (approveRecommendation st recId (some 0) n t).decisions
        = st.decisions
            ++ [⟨recId, DecisionKind.approved, some r.suggestedDiscountPercentage, n, t⟩] := by
  have hpres : ∀ x : DiscountRecommendation,
      ((applyApprove (some 0) x).id == recId) = (x.id == recId) := by
    intro x; rw [applyApprove_id]
  have happ : ∀ x : DiscountRecommendation,
      applyApprove (some 0) x = { x with status := RecStatus.approved } := by
    intro x; simp [applyApprove]
  have hfind1 :
      (updateFirst (fun x => x.id == recId) (applyApprove (some 0))
          st.recommendations).find? (fun x => x.id == recId)
        = some (applyApprove (some 0) r) :=
    find?_updateFirst_some hpres hfind
  constructor
  · simp only [approveRecommendation]
    rw [hfind1, happ r]
  · simp only [approveRecommendation, hfind1]
    simp [jsOrOpt, happ r]

/-- C10 witness: approving the pending sample recommendation
(suggested discount 15) with override 0 appends a decision carrying 15,
and the stored suggested discount stays 15. -/
theorem approve_zero_override_swallowed_witness :
    ((approveRecommendation ⟨[sampleRec RecStatus.pending], [], true, []⟩ "rec_1"
        (some 0) none 0).recommendations.find? (fun x => x.id == "rec_1")).map
        (fun x => x.suggestedDiscountPercentage) = some 15
    ∧ (approveRecommendation ⟨[sampleRec RecStatus.pending], [], true, []⟩ "rec_1"
        (some 0) none 0).decisions
      = [⟨"rec_1", DecisionKind.approved, some 15, none, 0⟩] := by
  have h := approve_zero_override_swallowed ⟨[sampleRec RecStatus.pending], [], true, []⟩
    "rec_1" (sampleRec RecStatus.pending) none 0 rfl rfl
  constructor
  · rw [h.1]; rfl
  · rw [h.2]; rfl
